import Mathlib

/-!
Shallow embedding of the `rattler` Twitter-feed scraping library
(page-content extraction engine, pagination/streaming pipeline, and the
embedded-gallery download helper), with theorems checking the spec's
claims against it.

Conventions of the embedding:
* HTML documents (parsed by the external `goquery`/`net/html`
  collaborator in the source) are modelled as trees of `Node`; the
  parser itself is passed in as a function `parse : String → List Node`.
* The generic decoded-JSON payload (`map[string]interface{}`) is
  modelled as an association list over `JVal`.
* Go's `(value, err)` returns are modelled with `Except`, or with
  `Option value × Option err` where the source can in principle
  distinguish all four combinations.
* Go's zero `time.Time` is modelled as `none : Option Int`; a timestamp
  set from `time.Unix(n, 0)` is `some n`.
* `uint64` values are `Nat` with an explicit `< 2^64` range check at the
  parsing boundary (`strconv.ParseUint`), `int64` likewise for
  `strconv.ParseInt`.
-/

/-- Model of a decoded generic JSON value (`interface{}` after
`json.Decode`). The extraction code only ever distinguishes: string,
explicit null, and "something else"; the other constructors keep the
shape of real payloads. -/
inductive JVal where
  | null
  | str (s : String)
  | boolean (b : Bool)
  | num (n : Int)
  | arr (elems : List JVal)
  | obj (fields : List (String × JVal))

/-- Model of an HTML node as produced by the parser collaborator: an
element with tag name, attributes, class list and children, or a text
node. -/
inductive Node where
  | elem (tag : String) (attrs : List (String × String))
      (classes : List String) (children : List Node)
  | text (s : String)

/-- Attribute lookup on a single node (goquery `Selection.Attr` applied
to a one-node selection): first attribute with the given key. -/
def Node.attrOf (n : Node) (key : String) : Option String :=
  match n with
  | .elem _ attrs _ _ => (attrs.find? (fun kv => kv.1 == key)).map (fun kv => kv.2)
  | .text _ => none

/-- Whether an element node has the given tag name. -/
def Node.tagIs (n : Node) (t : String) : Bool :=
  match n with
  | .elem tag _ _ _ => tag == t
  | .text _ => false

/-- Whether an element node carries the given CSS class. -/
def Node.hasClass (n : Node) (c : String) : Bool :=
  match n with
  | .elem _ _ classes _ => classes.contains c
  | .text _ => false

mutual

/-- All strict descendants of a node, in document (preorder) order.
goquery's `Find` matches against exactly these. -/
def Node.descendants : Node → List Node
  | .elem _ _ _ children => Node.descendantsOfList children
  | .text _ => []

/-- Nodes of a forest together with their descendants, preorder. -/
def Node.descendantsOfList : List Node → List Node
  | [] => []
  | c :: cs => c :: (Node.descendants c ++ Node.descendantsOfList cs)

end

mutual

/-- Concatenated text content of a node's subtree (goquery
`Selection.Text` on a one-node selection). -/
def Node.textContent : Node → String
  | .elem _ _ _ children => Node.textContentOfList children
  | .text s => s

/-- Concatenated text content of a forest. -/
def Node.textContentOfList : List Node → String
  | [] => ""
  | c :: cs => Node.textContent c ++ Node.textContentOfList cs

end

/-- Model of `sel.Find(selector)` on a one-node selection: all strict descendants
matching the predicate, in document order. -/
def Node.findAll (n : Node) (p : Node → Bool) : List Node :=
  n.descendants.filter p

/-- All nodes of a parsed document fragment (each top-level node and its
descendants, in document order); `doc.Find` on a whole document matches
against these. -/
def docAllNodes (doc : List Node) : List Node :=
  match doc with
  | [] => []
  | c :: cs => c :: (Node.descendants c ++ docAllNodes cs)

/-- Selector `li[data-item-type=tweet]` (also written
`li[data-item-type="tweet"]` in `extractTweets`): a tweet item
container. -/
def isTweetContainer (n : Node) : Bool :=
  n.tagIs "li" && (n.attrOf "data-item-type" == some "tweet")

/-- Selector `div[data-image-url]`. -/
def isImageNode (n : Node) : Bool :=
  n.tagIs "div" && (n.attrOf "data-image-url").isSome

/-- Selector `*[data-card-url]`. -/
def isCardNode (n : Node) : Bool :=
  (n.attrOf "data-card-url").isSome

/-- Selector `div.QuoteTweet-link`. -/
def isQuoteNode (n : Node) : Bool :=
  n.tagIs "div" && n.hasClass "QuoteTweet-link"

/-- Selector `div.PlayableMedia-player`. -/
def isVideoNode (n : Node) : Bool :=
  n.tagIs "div" && n.hasClass "PlayableMedia-player"

/-- Selector `*[data-time]`. -/
def isDateNode (n : Node) : Bool :=
  (n.attrOf "data-time").isSome

/-- Selector `p.tweet-text`. -/
def isTweetTextNode (n : Node) : Bool :=
  n.tagIs "p" && n.hasClass "tweet-text"

/-- The tweet containers of a page fragment, in document order
(`doc.Find("li[data-item-type=tweet]")`). -/
def tweetContainers (doc : List Node) : List Node :=
  (docAllNodes doc).filter isTweetContainer

/-- Value of a decimal digit, `none` for any other character. -/
def digitVal? (c : Char) : Option Nat :=
  if '0' ≤ c ∧ c ≤ '9' then some (c.toNat - '0'.toNat) else none

/-- Parse a non-empty all-digit character list as a natural number
(shared core of the `strconv` models below). -/
def decimalNat? (cs : List Char) : Option Nat :=
  cs.foldl
    (fun acc c =>
      match acc, digitVal? c with
      | some n, some d => some (n * 10 + d)
      | _, _ => none)
    (if cs.isEmpty then none else some 0)

/-- Model of `strconv.ParseUint(s, 10, 64)`: decimal digits only (no
sign), value below `2^64`; `none` models a parse error. -/
def parseUint64 (s : String) : Option Nat :=
  match decimalNat? s.data with
  | some n => if n < 2 ^ 64 then some n else none
  | none => none

/-- Model of `strconv.ParseInt(s, 10, 64)`: optional sign, decimal
digits, value within the signed 64-bit range. -/
def parseInt64 (s : String) : Option Int :=
  match s.data with
  | '+' :: rest =>
      (decimalNat? rest).bind (fun n => if n < 2 ^ 63 then some (n : Int) else none)
  | '-' :: rest =>
      (decimalNat? rest).bind (fun n => if n ≤ 2 ^ 63 then some (-(n : Int)) else none)
  | cs =>
      (decimalNat? cs).bind (fun n => if n < 2 ^ 63 then some (n : Int) else none)

/-! ## Record and variant model (`cursor.go`) -/

/-- Source type `TweetEmbeddedGallery`: multiple images embedded within a tweet. -/
structure TweetEmbeddedGallery where
  ImageURLs : List String
deriving DecidableEq, Repr

/-- Source type `TweetEmbeddedVideo`. -/
structure TweetEmbeddedVideo where
  VideoURL : String
deriving DecidableEq, Repr

/-- Source type `TweetEmbeddedCard`. -/
structure TweetEmbeddedCard where
  CardURL : String
deriving DecidableEq, Repr

/-- Source type `TweetEmbeddedQuote`. -/
structure TweetEmbeddedQuote where
  QuoteURL : String
deriving DecidableEq, Repr

/-- The tagged union of embedded-content shapes that can populate
`Tweet.Extra` (an `interface{}` in the source, always one of these four
pointers or nil). -/
inductive TweetExtra where
  | gallery (g : TweetEmbeddedGallery)
  | video (v : TweetEmbeddedVideo)
  | card (c : TweetEmbeddedCard)
  | quote (q : TweetEmbeddedQuote)
deriving DecidableEq, Repr

/-- Source type `Tweet`: one fetched feed record. `ID` is `uint64` (a `Nat` kept
below `2^64` by `parseUint64`); `Timestamp` is `none` for Go's zero
`time.Time` and `some n` for `time.Unix(n, 0)`. -/
structure Tweet where
  ID : Nat
  Timestamp : Option Int
  Text : String
  Extra : Option TweetExtra
deriving DecidableEq, Repr

/-- Source type `APICompatError`: structural/compatibility error, optionally carrying
the tweet id it concerns. -/
structure APICompatError where
  msg : String
  tweetID : Option Nat
deriving DecidableEq, Repr

/-! ## Page payload and extraction engine (`page.go`) -/

/-- Source type `FeedPage`: one decoded page payload, a JSON object. The decoded Go
map is modelled as an association list (first binding wins). -/
structure FeedPage where
  json : List (String × JVal)

/-- Raw key lookup in the page's JSON object (`t.json[name]`); `none`
models "key not in map". -/
def FeedPage.jsonLookup (t : FeedPage) (name : String) : Option JVal :=
  (t.json.find? (fun kv => kv.1 == name)).map (fun kv => kv.2)

/-- Source `lookupString`: fetch `t.json[name]` and type-assert it to string;
distinguishes "key does not exist" from "exists but is not a string"
(a JSON null is an `interface{}` nil and fails the assertion). -/
def FeedPage.lookupString (t : FeedPage) (name : String) : Except String String :=
  match t.jsonLookup name with
  | some (.str value) => .ok value
  | some _ => .error ("Can't convert '" ++ name ++ "' to string")
  | none => .error ("Key '" ++ name ++ "' does not exist in JSON object")

/-- Source `extractEmbeddedTweetImages`: collect `data-image-url` of every
`div[data-image-url]` descendant, in document order; a non-empty
collection yields a gallery, otherwise no variant. Never errors (the
`panic` branch for a matched node missing the attribute is unreachable:
the selector requires the attribute). -/
def extractEmbeddedTweetImages (sel : Node) :
    Option TweetEmbeddedGallery × Option APICompatError :=
  let imageURLs := (sel.findAll isImageNode).filterMap (fun n => n.attrOf "data-image-url")
  if imageURLs.isEmpty then (none, none)
  else (some ⟨imageURLs⟩, none)

/-- Source `extractEmbeddedTweetCard`: zero `*[data-card-url]` descendants is
no variant; exactly one yields a card from its `data-card-url`; two or
more is a structural error. (The `panic` for a matched node missing the
attribute is unreachable.) -/
def extractEmbeddedTweetCard (sel : Node) :
    Option TweetEmbeddedCard × Option APICompatError :=
  match sel.findAll isCardNode with
  | [] => (none, none)
  | [n] =>
      match n.attrOf "data-card-url" with
      | some url => (some ⟨url⟩, none)
      | none => (none, none)
  | _ => (none, some ⟨"Found more than a single card embeddable", none⟩)

/-- Source `extractEmbeddedTweetQuote`: zero `div.QuoteTweet-link` descendants
is no variant; exactly one yields a quote whose URL is
`"https://twitter.com"` concatenated with its `href` (a missing `href`
is a structural error); two or more is a structural error. -/
def extractEmbeddedTweetQuote (sel : Node) :
    Option TweetEmbeddedQuote × Option APICompatError :=
  match sel.findAll isQuoteNode with
  | [] => (none, none)
  | [n] =>
      match n.attrOf "href" with
      | some href => (some ⟨"https://twitter.com" ++ href⟩, none)
      | none => (none, some ⟨"Quote HTML node is missing URL", none⟩)
  | _ => (none, some ⟨"Found more than a single quote embeddable", none⟩)

/-- Source `extractEmbeddedTweetVideo`: video extraction is unimplemented in
the source; matching `div.PlayableMedia-player` nodes only logs, and the
function always returns no variant and no error. -/
def extractEmbeddedTweetVideo (_sel : Node) :
    Option TweetEmbeddedVideo × Option APICompatError :=
  (none, none)

/-- Source `extractTweetExtra`: the fixed-precedence classification chain
image, card, quote, video; each step returns its variant when present,
else its error when it failed, else falls through to the next step; no
step matching yields no variant and no error. -/
def extractTweetExtra (sel : Node) : Except APICompatError (Option TweetExtra) :=
  match extractEmbeddedTweetImages sel with
  | (some imageExtra, _) => .ok (some (.gallery imageExtra))
  | (none, some e) => .error e
  | (none, none) =>
    match extractEmbeddedTweetCard sel with
    | (some cardExtra, _) => .ok (some (.card cardExtra))
    | (none, some e) => .error e
    | (none, none) =>
      match extractEmbeddedTweetQuote sel with
      | (some quoteExtra, _) => .ok (some (.quote quoteExtra))
      | (none, some e) => .error e
      | (none, none) =>
        match extractEmbeddedTweetVideo sel with
        | (some videoExtra, _) => .ok (some (.video videoExtra))
        | (none, some e) => .error e
        | (none, none) => .ok none

/-- Source `extractTweet`: extract one record from an item container node.
Required `data-item-id` (decimal `uint64`, else structural error); the
`*[data-time]` timestamp is read only when the selector matches exactly
one descendant (any other count leaves the zero timestamp, with an error
only when the single match fails to parse); exactly one `p.tweet-text`
descendant is required (zero or several is a structural error); finally
the embedded-content chain runs, its error annotated with the tweet id. -/
def extractTweet (sel : Node) : Except APICompatError Tweet :=
  match sel.attrOf "data-item-id" with
  | none => .error ⟨"Tweet ID not found", none⟩
  | some idStr =>
    match parseUint64 idStr with
    | none => .error ⟨"Unable to parse tweet id", none⟩
    | some tweetID =>
      let dateSel := sel.findAll isDateNode
      let dateRes : Except APICompatError (Option Int) :=
        if dateSel.length = 1 then
          match dateSel.head?.bind (fun n => n.attrOf "data-time") with
          | some dateStr =>
            match parseInt64 dateStr with
            | some unixTime => .ok (some unixTime)
            | none => .error ⟨"Unable to parse tweet id", some tweetID⟩
          | none => .ok none
        else .ok none
      match dateRes with
      | .error e => .error e
      | .ok date =>
        match sel.findAll isTweetTextNode with
        | [textNode] =>
          match extractTweetExtra sel with
          | .error e => .error ⟨e.msg, some tweetID⟩
          | .ok extra => .ok ⟨tweetID, date, textNode.textContent, extra⟩
        | [] => .error ⟨"Tweet text not found", some tweetID⟩
        | _ => .error ⟨"Expected a single node containing tweet text", some tweetID⟩

/-- The `EachWithBreak` loop body of `extractTweets`: extract containers
in document order, appending each successful record and stopping at the
first container whose extraction fails. -/
def extractTweetsLoop : List Node → List Tweet
  | [] => []
  | c :: cs =>
    match extractTweet c with
    | .ok tweet => tweet :: extractTweetsLoop cs
    | .error _ => []

/-- Source `extractTweets`: parse the fragment, walk its tweet containers with
the stop-at-first-failure loop, and return the collected records paired
with the always-nil error (the HTML parse error path aborts the process
via `log.Fatal` and never returns). -/
def extractTweets (parse : String → List Node) (html : String) :
    List Tweet × Option String :=
  (extractTweetsLoop (tweetContainers (parse html)), none)

/-- Source `GetTweets`: look up the `items_html` string (its lookup error is the
page-level error) and run record extraction on it. -/
def FeedPage.GetTweets (parse : String → List Node) (t : FeedPage) :
    Except String (List Tweet) :=
  match t.lookupString "items_html" with
  | .error e => .error e
  | .ok html =>
    match extractTweets parse html with
    | (tweets, none) => .ok tweets
    | (_, some e) => .error e

/-- Source `extractMinPosition`: fallback scan used when the `min_position` key
is absent — find the last `li[data-item-type=tweet]` node of the
`items_html` fragment and return its `data-item-id` (an empty string if
no such node; a structural error if the node lacks the attribute). -/
def FeedPage.extractMinPosition (parse : String → List Node) (t : FeedPage) :
    Except String String :=
  match t.lookupString "items_html" with
  | .error e => .error e
  | .ok pageHTML =>
    match (tweetContainers (parse pageHTML)).getLast? with
    | none => .ok ""
    | some lastNode =>
      match lastNode.attrOf "data-item-id" with
      | some value => .ok value
      | none => .error "Can't extract tweet ID, because HTML attribute data-item-id does not exist"

/-- Source `GetMinPosition`: the `min_position` string when present; `""` when
the key is present but null; the `extractMinPosition` fallback when the
key is absent (its empty result is returned as `""`); the string-lookup
error when the key is present with a non-string, non-null value. -/
def FeedPage.GetMinPosition (parse : String → List Node) (t : FeedPage) :
    Except String String :=
  match t.lookupString "min_position" with
  | .ok pos => .ok pos
  | .error lookupErr =>
    match t.jsonLookup "min_position" with
    | some .null => .ok ""
    | none =>
      match t.extractMinPosition parse with
      | .error e => .error e
      | .ok minPosition => .ok minPosition
    | some _ => .error lookupErr

/-! ## Streaming pipeline (`iter.go`, `session.go`)

`FeedIter` runs two goroutines joined by channels. Because the two
stages communicate through a single FIFO channel and the claims under
check concern the contents of the output stream (not cancellation), the
pipeline is embedded sequentially: the fetch goroutine is a function
from the environment's fetch responses to the list of messages it sends
on `pageChan`, and the dedup/emit goroutine is a function from that
message list (plus the session's `seenTweets` set) to the list of
results sent on `tweetChan` before it closes.

A `FeedPageReader` (the interface the pipeline consumes) is modelled by
the results its two methods would return; the environment (cursor plus
network) is the list of successive `RetrievePage` outcomes. -/

/-- The observable behaviour of one `FeedPageReader`: what `GetTweets`
and `GetMinPosition` return for that page. -/
structure FeedPageReaderM where
  tweets : Except String (List Tweet)
  minPosition : Except String String

/-- View a concrete `FeedPage` as the reader the pipeline consumes. -/
def FeedPage.toReader (parse : String → List Node) (t : FeedPage) : FeedPageReaderM :=
  ⟨t.GetTweets parse, t.GetMinPosition parse⟩

/-- One message on `pageChan`: a `pageIter` value carrying either a page
or an error. -/
inductive PageMsg where
  | page (p : FeedPageReaderM)
  | fail (e : String)

/-- One message on the output channel: a `FeedIterResult` carrying
either a tweet or an error. -/
inductive FeedIterResult where
  | tweet (t : Tweet)
  | fail (e : String)

/-- The fetch goroutine of `FeedIter`: repeatedly `RetrievePage` (the
environment list supplies successive outcomes); send the outcome; stop
after a fetch error, after one page in single-page mode, or when
`Seek(minPosition)` returns `false` (an empty token); a failing
`GetMinPosition` is sent as a second, error message and stops the
loop. An exhausted environment list simply ends the model run. -/
def stageA (onlyOnePage : Bool) : List (Except String FeedPageReaderM) → List PageMsg
  | [] => []
  | .error e :: _ => [.fail e]
  | .ok page :: rest =>
    if onlyOnePage then [.page page]
    else
      match page.minPosition with
      | .ok minPos =>
          if minPos.isEmpty then [.page page]
          else .page page :: stageA onlyOnePage rest
      | .error e => [.page page, .fail e]

/-- The per-page dedup/emit loop of the consumer goroutine: each tweet
whose `ID` is not yet in `seenTweets` is emitted and its id added;
already-seen ids are dropped (only logged). Returns the emitted results
and the updated seen set. -/
def emitPage (seen : List Nat) : List Tweet → List FeedIterResult × List Nat
  | [] => ([], seen)
  | t :: ts =>
    if t.ID ∈ seen then emitPage seen ts
    else
      let step := emitPage (t.ID :: seen) ts
      (.tweet t :: step.1, step.2)

/-- The consumer goroutine of `FeedIter`: drain `pageChan`; an error
message yields one error result and stops; a failing `GetTweets` yields
one error result and stops; an empty tweet list stops with nothing
emitted; otherwise the page's tweets are deduplicated and emitted and
the loop continues with the grown seen set. -/
def stageB (seen : List Nat) : List PageMsg → List FeedIterResult
  | [] => []
  | .fail e :: _ => [.fail e]
  | .page p :: rest =>
    match p.tweets with
    | .error e => [.fail e]
    | .ok tweets =>
      if tweets.isEmpty then []
      else
        let step := emitPage seen tweets
        step.1 ++ stageB step.2 rest

/-- Source `TwitterSession.FeedIter`: the full observable output stream of one
iterator run, given the session's current `seenTweets` set and the
environment's successive fetch outcomes. -/
def FeedIter (onlyOnePage : Bool) (seen : List Nat)
    (env : List (Except String FeedPageReaderM)) : List FeedIterResult :=
  stageB seen (stageA onlyOnePage env)

/-- The ids carried by the success results of an output stream. -/
def emittedIDs (results : List FeedIterResult) : List Nat :=
  results.filterMap (fun r =>
    match r with
    | .tweet t => some t.ID
    | .fail _ => none)

/-! ## Embedded-gallery download helper (`cursor.go`, `session.go`) -/

/-- One message on the channel returned by
`TweetEmbeddedGallery.Download`. The body type is abstract (an
`io.ReadCloser` in the source); errors are modelled by their messages. -/
structure GalleryDownloadResult (β : Type) where
  FileExt : String
  Body : Option β
  Error : Option String
deriving Repr

/-- Model of `strings.TrimSuffix`. -/
def trimSuffix (s suffix : String) : String :=
  if s.endsWith suffix then s.dropRight suffix.length else s

/-- Index of the last character of `s` that belongs to `chars`
(`strings.LastIndexAny`). -/
def lastIndexAny (s : List Char) (chars : List Char) : Option Nat :=
  (s.reverse.findIdx? (fun c => chars.contains c)).map (fun j => s.length - 1 - j)

/-- Source `extractFileExtFromURL`: parse the URL (the `net/url` collaborator
is passed in as `pathOf`, returning the URL's path component or `none`
on a parse error), and return the substring after the final dot of the
path when that dot follows the last slash and is not the last
character; otherwise the empty string. -/
def extractFileExtFromURL (pathOf : String → Option String) (rawURL : String) : String :=
  match pathOf rawURL with
  | none => ""
  | some p =>
    let cs := p.data
    match lastIndexAny cs ['/', '.'] with
    | some extOffset =>
        if cs.get? extOffset = some '.' ∧ extOffset + 1 < cs.length then
          ⟨cs.drop (extOffset + 1)⟩
        else ""
    | none => ""

/-- The per-URL loop body of `Download`: request `url ++ ":orig"`
through the transport collaborator `fetch`; a failed request emits one
error result and stops; a successful one emits the body with a file
extension derived from the URL (size suffixes stripped, `"png"` as the
fallback) and continues. -/
def downloadLoop {β : Type} (fetch : String → Except String β)
    (pathOf : String → Option String) : List String → List (GalleryDownloadResult β)
  | [] => []
  | rawURL :: rest =>
    let imageVariantURL := rawURL ++ ":orig"
    match fetch imageVariantURL with
    | .error e => [⟨"", none, some e⟩]
    | .ok body =>
      let cleanURL := trimSuffix (trimSuffix rawURL ":large") ":orig"
      let fileExt := extractFileExtFromURL pathOf cleanURL
      let fileExt := if fileExt.isEmpty then "png" else fileExt
      ⟨fileExt, some body, none⟩ :: downloadLoop fetch pathOf rest

/-- Source `TweetEmbeddedGallery.Download`: the full sequence of results sent
on the returned channel before it is closed. An empty `ImageURLs` emits
exactly one error result and closes without touching the transport. -/
def TweetEmbeddedGallery.Download {β : Type} (fetch : String → Except String β)
    (pathOf : String → Option String) (t : TweetEmbeddedGallery) :
    List (GalleryDownloadResult β) :=
  if t.ImageURLs.isEmpty then
    [⟨"", none, some "Tweet contains no image URLs"⟩]
  else
    downloadLoop fetch pathOf t.ImageURLs

/-- Whether an output-stream result is an error result. -/
def isFailResult (r : FeedIterResult) : Bool :=
  match r with
  | .fail _ => true
  | .tweet _ => false

/-! ## Concrete fixtures used by witness and counterexample theorems -/

/-- Fixture: a two-page environment sharing id 2, for the dedup claim. -/
def envC1 : List (Except String FeedPageReaderM) :=
  [.ok ⟨.ok [⟨1, none, "a", none⟩, ⟨2, none, "b", none⟩], .ok "next"⟩,
   .ok ⟨.ok [⟨2, none, "b", none⟩, ⟨3, none, "c", none⟩], .ok ""⟩]

/-- Fixture: a `p.tweet-text` node holding the given text. -/
def textNodeW (s : String) : Node :=
  .elem "p" [] ["tweet-text"] [.text s]

/-- Fixture: an item container (`li[data-item-type=tweet]`) with the
given `data-item-id` and children. -/
def containerW (idv : String) (children : List Node) : Node :=
  .elem "li" [("data-item-type", "tweet"), ("data-item-id", idv)] [] children

/-- Fixture: a `div[data-image-url]` node. -/
def imgNodeW (u : String) : Node :=
  .elem "div" [("data-image-url", u)] [] []

/-- Fixture: a `*[data-card-url]` node. -/
def cardNodeW (u : String) : Node :=
  .elem "div" [("data-card-url", u)] [] []

/-- Fixture: a `*[data-time]` node. -/
def dateNodeW (d : String) : Node :=
  .elem "span" [("data-time", d)] [] []

/-- Fixture: a `div.QuoteTweet-link` node with an `href`. -/
def quoteNodeW (h : String) : Node :=
  .elem "div" [("href", h)] ["QuoteTweet-link"] []

/-- Fixture: a `div.QuoteTweet-link` node lacking `href`. -/
def quoteNodeNoHref : Node :=
  .elem "div" [] ["QuoteTweet-link"] []

/-- Fixture: a parser collaborator returning one tweet container with
id 123, regardless of input. -/
def parseC4 : String → List Node := fun _ =>
  [containerW "123" []]

/-- Fixture: a parser collaborator returning a fragment with no tweet
containers. -/
def parseC4e : String → List Node := fun _ =>
  [.text "no tweets here"]

/-- Fixture: page payloads exercising each `GetMinPosition` case. -/
def pageC4a : FeedPage := ⟨[("min_position", .str "POS")]⟩

/-- Fixture: `min_position` present but null. -/
def pageC4b : FeedPage := ⟨[("min_position", .null)]⟩

/-- Fixture: `min_position` absent, `items_html` parsable. -/
def pageC4c : FeedPage := ⟨[("items_html", .str "frag")]⟩

/-- Fixture: `min_position` present with a non-string, non-null value. -/
def pageC4d : FeedPage := ⟨[("min_position", .num 5)]⟩

/-- Fixture: a parser returning one good container, one container whose
id fails to parse, then another good container. -/
def parseC5 : String → List Node := fun _ =>
  [containerW "1" [textNodeW "a"],
   containerW "oops" [textNodeW "b"],
   containerW "3" [textNodeW "c"]]

/-- Fixture: a container with two `*[data-time]` descendants and
otherwise well-formed fields. -/
def c6node : Node :=
  containerW "7" [dateNodeW "100", dateNodeW "200", textNodeW "hi"]

/-- Fixture: a container with no `*[data-time]` descendant. -/
def c6nodeZero : Node :=
  containerW "7" [textNodeW "hi"]

/-- Fixture: a container with exactly one `*[data-time]` descendant. -/
def c6nodeOne : Node :=
  containerW "7" [dateNodeW "100", textNodeW "hi"]

/-- Fixture: a container holding both image nodes and a card node. -/
def c2ImgCard : Node :=
  containerW "7" [imgNodeW "u1", cardNodeW "cu", imgNodeW "u2"]

/-- Fixture: a container holding a card node and no image node. -/
def c2CardOnly : Node :=
  containerW "7" [cardNodeW "cu"]

/-- Fixture: a container holding one quote-link node with an href. -/
def c10Good : Node :=
  containerW "7" [quoteNodeW "/a/status/5"]

/-- Fixture: a container holding one quote-link node without href. -/
def c10Bad : Node :=
  containerW "7" [quoteNodeNoHref]

/-! ## Helper lemmas -/

lemma emittedIDs_nil : emittedIDs [] = [] := rfl

lemma emittedIDs_cons_tweet (t : Tweet) (rs : List FeedIterResult) :
    emittedIDs (.tweet t :: rs) = t.ID :: emittedIDs rs := rfl

lemma emittedIDs_append (rs₁ rs₂ : List FeedIterResult) :
    emittedIDs (rs₁ ++ rs₂) = emittedIDs rs₁ ++ emittedIDs rs₂ := by
  simp [emittedIDs]

lemma emitPage_spec (ts : List Tweet) (seen : List Nat) :
    (emittedIDs (emitPage seen ts).1).Nodup ∧
    (∀ i ∈ emittedIDs (emitPage seen ts).1, i ∉ seen) ∧
    (∀ j, j ∈ (emitPage seen ts).2 ↔ (j ∈ seen ∨ j ∈ emittedIDs (emitPage seen ts).1)) := by
  induction ts generalizing seen with
  | nil => simp [emitPage, emittedIDs]
  | cons t ts ih =>
    by_cases hmem : t.ID ∈ seen
    · simpa [emitPage, hmem] using ih seen
    · obtain ⟨ih₁, ih₂, ih₃⟩ := ih (t.ID :: seen)
      have hred : emitPage seen (t :: ts) =
          (.tweet t :: (emitPage (t.ID :: seen) ts).1, (emitPage (t.ID :: seen) ts).2) := by
        simp [emitPage, hmem]
      rw [hred]
      refine ⟨?_, ?_, ?_⟩
      · rw [emittedIDs_cons_tweet, List.nodup_cons]
        refine ⟨fun hin => ?_, ih₁⟩
        exact ih₂ t.ID hin (List.mem_cons_self _ _)
      · intro i hi
        rw [emittedIDs_cons_tweet, List.mem_cons] at hi
        rcases hi with rfl | hi
        · exact hmem
        · intro hseen
          exact ih₂ i hi (List.mem_cons_of_mem _ hseen)
      · intro j
        rw [emittedIDs_cons_tweet]
        have := ih₃ j
        simp only [List.mem_cons] at this ⊢
        tauto

lemma emitPage_results_tweets (ts : List Tweet) (seen : List Nat) :
    ∃ out : List Tweet, (emitPage seen ts).1 = out.map FeedIterResult.tweet := by
  induction ts generalizing seen with
  | nil => exact ⟨[], rfl⟩
  | cons t ts ih =>
    by_cases hmem : t.ID ∈ seen
    · simpa [emitPage, hmem] using ih seen
    · obtain ⟨out, hout⟩ := ih (t.ID :: seen)
      exact ⟨t :: out, by simp [emitPage, hmem, hout]⟩

lemma stageB_emittedIDs_spec (msgs : List PageMsg) (seen : List Nat) :
    (emittedIDs (stageB seen msgs)).Nodup ∧
    ∀ i ∈ emittedIDs (stageB seen msgs), i ∉ seen := by
  induction msgs generalizing seen with
  | nil => simp [stageB, emittedIDs]
  | cons m rest ih =>
    cases m with
    | fail e => simp [stageB, emittedIDs]
    | page p =>
      cases hw : p.tweets with
      | error e => simp [stageB, hw, emittedIDs]
      | ok tweets =>
        by_cases hemp : tweets.isEmpty
        · simp [stageB, hw, hemp, emittedIDs]
        · obtain ⟨h₁, h₂, h₃⟩ := emitPage_spec tweets seen
          obtain ⟨ih₁, ih₂⟩ := ih (emitPage seen tweets).2
          have hred : stageB seen (.page p :: rest) =
              (emitPage seen tweets).1 ++ stageB (emitPage seen tweets).2 rest := by
            simp [stageB, hw, hemp]
          rw [hred, emittedIDs_append]
          constructor
          · rw [List.nodup_append]
            refine ⟨h₁, ih₁, ?_⟩
            intro a ha hb
            exact ih₂ a hb ((h₃ a).2 (Or.inr ha))
          · intro i hi
            rcases List.mem_append.mp hi with hi | hi
            · exact h₂ i hi
            · intro hseen
              exact ih₂ i hi ((h₃ i).2 (Or.inl hseen))

lemma stageB_shape (msgs : List PageMsg) (seen : List Nat) :
    ∃ (out : List Tweet) (tail : List FeedIterResult),
      stageB seen msgs = out.map FeedIterResult.tweet ++ tail ∧
      (tail = [] ∨ ∃ e, tail = [FeedIterResult.fail e]) := by
  induction msgs generalizing seen with
  | nil => exact ⟨[], [], by simp [stageB], Or.inl rfl⟩
  | cons m rest ih =>
    cases m with
    | fail e => exact ⟨[], [.fail e], by simp [stageB], Or.inr ⟨e, rfl⟩⟩
    | page p =>
      cases hw : p.tweets with
      | error e => exact ⟨[], [.fail e], by simp [stageB, hw], Or.inr ⟨e, rfl⟩⟩
      | ok tweets =>
        by_cases hemp : tweets.isEmpty
        · exact ⟨[], [], by simp [stageB, hw, hemp], Or.inl rfl⟩
        · obtain ⟨out₀, hout₀⟩ := emitPage_results_tweets tweets seen
          obtain ⟨out₁, tail, heq, htail⟩ := ih (emitPage seen tweets).2
          refine ⟨out₀ ++ out₁, tail, ?_, htail⟩
          simp [stageB, hw, hemp, hout₀, heq]

lemma imageURLs_ne_nil (sel : Node) (h : sel.findAll isImageNode ≠ []) :
    (sel.findAll isImageNode).filterMap (fun n => n.attrOf "data-image-url") ≠ [] := by
  obtain ⟨n, hn⟩ := List.exists_mem_of_ne_nil _ h
  have himg : isImageNode n = true := List.of_mem_filter hn
  have hsome : (n.attrOf "data-image-url").isSome := by
    rw [isImageNode, Bool.and_eq_true] at himg
    exact himg.2
  obtain ⟨u, hu⟩ := Option.isSome_iff_exists.mp hsome
  intro hcontra
  rw [List.filterMap_eq_nil_iff] at hcontra
  exact Option.some_ne_none u (hu ▸ (hcontra n hn))

lemma extractTweetsLoop_stops_at_failure (pre : List Node) (bad : Node)
    (hpre : ∀ c ∈ pre, ∃ t, extractTweet c = .ok t)
    (hbad : ∃ e, extractTweet bad = .error e) (post : List Node) :
    extractTweetsLoop (pre ++ bad :: post) =
      pre.filterMap (fun c => (extractTweet c).toOption) := by
  induction pre with
  | nil =>
    obtain ⟨e, he⟩ := hbad
    simp [extractTweetsLoop, he]
  | cons c cs ih =>
    obtain ⟨t, ht⟩ := hpre c (List.mem_cons_self _ _)
    have ih' := ih (fun c hc => hpre c (List.mem_cons_of_mem _ hc))
    simp [extractTweetsLoop, ht, ih', Except.toOption]

/-! ## Claim theorems -/

/-- C1: for every session and every record id, the pipeline emits a
success result carrying that id at most once. Records whose id is
already in the session's `seenTweets` set are dropped; fresh ids are
emitted and added; so across the whole output stream the emitted ids
are pairwise distinct (even when the same id appears on two different
fetched pages) and disjoint from the ids the session had already seen. -/
theorem feedIter_dedup (b : Bool) (seen : List Nat)
    (env : List (Except String FeedPageReaderM)) :
    ((emittedIDs (FeedIter b seen env)).Nodup ∧
      ∀ i ∈ emittedIDs (FeedIter b seen env), i ∉ seen) ∧
    (∀ (s : List Nat) (t : Tweet) ts, t.ID ∈ s →
      emitPage s (t :: ts) = emitPage s ts) ∧
    (∀ (s : List Nat) (t : Tweet) ts, t.ID ∉ s →
      emitPage s (t :: ts) =
        (.tweet t :: (emitPage (t.ID :: s) ts).1, (emitPage (t.ID :: s) ts).2)) :=
  ⟨stageB_emittedIDs_spec (stageA b env) seen,
   fun s t ts h => by simp [emitPage, h],
   fun s t ts h => by simp [emitPage, h]⟩

/-- Witness for C1 at concrete inputs: the emitted ids of a two-page
run sharing id 2 are pairwise distinct, the freshly emitted id 2 was
not in the session's prior seen set, an already-seen record is dropped
without output, and a fresh record is emitted with its id added. -/
theorem feedIter_dedup_witness :
    ((emittedIDs (FeedIter false [9] envC1)).Nodup ∧ 2 ∉ ([9] : List Nat)) ∧
    emitPage [1] [⟨1, none, "a", none⟩] = emitPage [1] [] ∧
    emitPage [9] [⟨5, none, "d", none⟩] =
      (.tweet ⟨5, none, "d", none⟩ :: (emitPage (5 :: [9]) []).1,
        (emitPage (5 :: [9]) []).2) :=
  ⟨⟨(feedIter_dedup false [9] envC1).1.1,
    (feedIter_dedup false [9] envC1).1.2 2 (by decide)⟩,
   (feedIter_dedup false [9] envC1).2.1 [1] ⟨1, none, "a", none⟩ [] (by decide),
   (feedIter_dedup false [9] envC1).2.2 [9] ⟨5, none, "d", none⟩ [] (by decide)⟩

/-- C3: for every run of the pipeline the output stream is a block of
success results followed by a tail that is either empty or exactly one
error result — hence at most one error result is ever emitted, and
after the first error result nothing follows (the stream is closed
right after it). -/
theorem feedIter_at_most_one_error_then_closed (b : Bool) (seen : List Nat)
    (env : List (Except String FeedPageReaderM)) :
    (FeedIter b seen env).countP isFailResult ≤ 1 ∧
    ∃ (out : List Tweet) (tail : List FeedIterResult),
      FeedIter b seen env = out.map FeedIterResult.tweet ++ tail ∧
      (tail = [] ∨ ∃ e, tail = [FeedIterResult.fail e]) := by
  obtain ⟨out, tail, heq, htail⟩ := stageB_shape (stageA b env) seen
  have heq' : FeedIter b seen env = out.map FeedIterResult.tweet ++ tail := heq
  refine ⟨?_, out, tail, heq', htail⟩
  rw [heq', List.countP_append]
  have h1 : (out.map FeedIterResult.tweet).countP isFailResult = 0 := by
    rw [List.countP_eq_zero]
    intro a ha
    obtain ⟨t, _, rfl⟩ := List.mem_map.mp ha
    simp [isFailResult]
  rcases htail with rfl | ⟨e, rfl⟩ <;> simp [h1, isFailResult]

/-- C7: a fetched page that yields zero records ends the stream with no
error result: the dedup/emit stage returns immediately (emitting
nothing, in particular no terminal marker), both as a local fact about
the consumer loop and for a whole pipeline run hitting such a page. -/
theorem feedIter_empty_page_closes_without_error (seen : List Nat)
    (mp : Except String String) (rest : List PageMsg) (b : Bool)
    (env : List (Except String FeedPageReaderM)) :
    stageB seen (PageMsg.page ⟨Except.ok [], mp⟩ :: rest) = [] ∧
    FeedIter b seen (Except.ok ⟨Except.ok [], mp⟩ :: env) = [] := by
  constructor
  · simp [stageB]
  · cases b with
    | false =>
      cases mp with
      | ok s => by_cases hs : s.isEmpty <;> simp [FeedIter, stageA, stageB, hs]
      | error e => simp [FeedIter, stageA, stageB]
    | true => simp [FeedIter, stageA, stageB]

/-- C8: with single-page mode enabled the fetch stage consumes exactly
one fetch outcome and performs exactly one hand-off: its message list
for any environment equals the one for the one-fetch environment and
has length one, so the output stream carries results from exactly that
one fetched page regardless of any further `nextPosition`
availability. -/
theorem feedIter_single_page_mode (seen : List Nat)
    (f : Except String FeedPageReaderM)
    (rest : List (Except String FeedPageReaderM)) :
    stageA true (f :: rest) = stageA true [f] ∧
    (stageA true (f :: rest)).length = 1 ∧
    FeedIter true seen (f :: rest) = FeedIter true seen [f] := by
  cases f <;> simp [stageA, FeedIter]

/-- C2: embedded-content classification gives images absolute
precedence. When the container has one or more image nodes, the variant
is a Gallery collecting all image URLs in document order — whatever
card, quote or video content the container also holds (in particular it
is never a Card) — and when the container has zero image nodes the
chain falls through to the card check, whose single-card result is then
returned. -/
theorem extractTweetExtra_image_precedence (sel : Node) :
    (sel.findAll isImageNode ≠ [] →
      extractTweetExtra sel =
        .ok (some (.gallery
          ⟨(sel.findAll isImageNode).filterMap (fun n => n.attrOf "data-image-url")⟩)) ∧
      ∀ c, extractTweetExtra sel ≠ .ok (some (.card c))) ∧
    (sel.findAll isImageNode = [] →
      ∀ n u, sel.findAll isCardNode = [n] → n.attrOf "data-card-url" = some u →
        extractTweetExtra sel = .ok (some (.card ⟨u⟩))) := by
  constructor
  · intro hnodes
    have hne := imageURLs_ne_nil sel hnodes
    have hemp : ((sel.findAll isImageNode).filterMap
        (fun n => n.attrOf "data-image-url")).isEmpty = false := by
      cases hcs : (sel.findAll isImageNode).filterMap (fun n => n.attrOf "data-image-url") with
      | nil => exact absurd hcs hne
      | cons a l => rfl
    have himg : extractEmbeddedTweetImages sel =
        (some ⟨(sel.findAll isImageNode).filterMap (fun n => n.attrOf "data-image-url")⟩,
          none) := by
      simp only [extractEmbeddedTweetImages]
      rw [hemp]
      simp
    have hres : extractTweetExtra sel =
        .ok (some (.gallery
          ⟨(sel.findAll isImageNode).filterMap (fun n => n.attrOf "data-image-url")⟩)) := by
      simp [extractTweetExtra, himg]
    exact ⟨hres, fun c => by simp [hres]⟩
  · intro hnodes n u hcard hattr
    have himg : extractEmbeddedTweetImages sel = (none, none) := by
      simp [extractEmbeddedTweetImages, hnodes]
    have hcardres : extractEmbeddedTweetCard sel = (some ⟨u⟩, none) := by
      simp [extractEmbeddedTweetCard, hcard, hattr]
    simp [extractTweetExtra, himg, hcardres]

/-- Witness for C2: a container with two image nodes and a card node
classifies as the Gallery of both image URLs in document order and not
as a Card; the same container without the image nodes classifies as the
Card. -/
theorem extractTweetExtra_image_precedence_witness :
    (extractTweetExtra c2ImgCard =
        .ok (some (.gallery
          ⟨(c2ImgCard.findAll isImageNode).filterMap (fun n => n.attrOf "data-image-url")⟩)) ∧
      ∀ c, extractTweetExtra c2ImgCard ≠ .ok (some (.card c))) ∧
    extractTweetExtra c2CardOnly = .ok (some (.card ⟨"cu"⟩)) :=
  ⟨(extractTweetExtra_image_precedence c2ImgCard).1 (List.cons_ne_nil _ _),
   (extractTweetExtra_image_precedence c2CardOnly).2 rfl (cardNodeW "cu") "cu" rfl rfl⟩

/-- C4: the four `GetMinPosition` cases. A present string value is
returned as is; a present null yields the empty string with no error;
an absent key falls back to scanning the `items_html` fragment, yielding
the last tweet container's `data-item-id` (or the empty string when the
fragment has no tweet container); a present non-string, non-null value
is a structural error. -/
theorem getMinPosition_cases (parse : String → List Node) (p : FeedPage) :
    (∀ s, p.jsonLookup "min_position" = some (.str s) →
        p.GetMinPosition parse = .ok s) ∧
    (p.jsonLookup "min_position" = some .null → p.GetMinPosition parse = .ok "") ∧
    (∀ h, p.jsonLookup "min_position" = none → p.lookupString "items_html" = .ok h →
      (∀ n v, (tweetContainers (parse h)).getLast? = some n →
          n.attrOf "data-item-id" = some v → p.GetMinPosition parse = .ok v) ∧
      ((tweetContainers (parse h)).getLast? = none → p.GetMinPosition parse = .ok "")) ∧
    (∀ v, p.jsonLookup "min_position" = some v → (∀ s, v ≠ .str s) → v ≠ .null →
      ∃ e, p.GetMinPosition parse = .error e) := by
  refine ⟨?_, ?_, ?_, ?_⟩
  · intro s hs
    simp [FeedPage.GetMinPosition, FeedPage.lookupString, hs]
  · intro hn
    simp [FeedPage.GetMinPosition, FeedPage.lookupString, hn]
  · intro h hnone hitems
    have hmin : p.lookupString "min_position" =
        .error ("Key '" ++ "min_position" ++ "' does not exist in JSON object") := by
      simp [FeedPage.lookupString, hnone]
    constructor
    · intro n v hlast hattr
      simp [FeedPage.GetMinPosition, hmin, hnone, FeedPage.extractMinPosition,
        hitems, hlast, hattr]
    · intro hlast
      simp [FeedPage.GetMinPosition, hmin, hnone, FeedPage.extractMinPosition,
        hitems, hlast]
  · intro v hv hnotstr hnotnull
    cases v with
    | null => exact absurd rfl hnotnull
    | str s => exact absurd rfl (hnotstr s)
    | boolean b =>
      exact ⟨"Can't convert 'min_position' to string",
        by simp [FeedPage.GetMinPosition, FeedPage.lookupString, hv]⟩
    | num n =>
      exact ⟨"Can't convert 'min_position' to string",
        by simp [FeedPage.GetMinPosition, FeedPage.lookupString, hv]⟩
    | arr elems =>
      exact ⟨"Can't convert 'min_position' to string",
        by simp [FeedPage.GetMinPosition, FeedPage.lookupString, hv]⟩
    | obj fields =>
      exact ⟨"Can't convert 'min_position' to string",
        by simp [FeedPage.GetMinPosition, FeedPage.lookupString, hv]⟩

/-- Witness for C4 at concrete payloads: each of the four cases on a
concrete page (plus the no-tweet-node fallback sub-case). -/
theorem getMinPosition_cases_witness :
    pageC4a.GetMinPosition parseC4 = .ok "POS" ∧
    pageC4b.GetMinPosition parseC4 = .ok "" ∧
    pageC4c.GetMinPosition parseC4 = .ok "123" ∧
    pageC4c.GetMinPosition parseC4e = .ok "" ∧
    ∃ e, pageC4d.GetMinPosition parseC4 = .error e :=
  ⟨(getMinPosition_cases parseC4 pageC4a).1 "POS" rfl,
   (getMinPosition_cases parseC4 pageC4b).2.1 rfl,
   ((getMinPosition_cases parseC4 pageC4c).2.2.1 "frag" rfl rfl).1
     (containerW "123" []) "123" rfl rfl,
   ((getMinPosition_cases parseC4e pageC4c).2.2.1 "frag" rfl rfl).2 rfl,
   (getMinPosition_cases parseC4 pageC4d).2.2.2 (.num 5) rfl
     (fun s hcon => by cases hcon) (fun hcon => by cases hcon)⟩

/-- C5: record extraction walks containers in document order and stops
at the first container whose extraction fails, returning exactly the
records successfully extracted before the failure with no list-level
error value (the error component of `extractTweets` is always `none`
by construction); the result is unchanged by anything after the failing
container, so containers after it are never extracted, and a page whose
first container fails yields the empty record list (the `pre = []`
instance). -/
theorem extractTweets_truncates_at_first_failure
    (parse : String → List Node) (html : String)
    (pre : List Node) (bad : Node) (post : List Node)
    (hsplit : tweetContainers (parse html) = pre ++ bad :: post)
    (hpre : ∀ c ∈ pre, ∃ t, extractTweet c = .ok t)
    (hbad : ∃ e, extractTweet bad = .error e) :
    extractTweets parse html =
      (pre.filterMap (fun c => (extractTweet c).toOption), none) ∧
    extractTweetsLoop (pre ++ bad :: post) = extractTweetsLoop (pre ++ [bad]) := by
  have h₁ := extractTweetsLoop_stops_at_failure pre bad hpre hbad post
  have h₂ := extractTweetsLoop_stops_at_failure pre bad hpre hbad []
  constructor
  · show (extractTweetsLoop (tweetContainers (parse html)), none) = _
    rw [hsplit, h₁]
  · rw [h₁, h₂]

/-- Witness for C5: a three-container page whose middle container has a
non-decimal id yields exactly the first container's record, and the
loop's output is independent of the container after the failure. -/
theorem extractTweets_truncates_witness :
    extractTweets parseC5 "x" =
      ([containerW "1" [textNodeW "a"]].filterMap
        (fun c => (extractTweet c).toOption), none) ∧
    extractTweetsLoop ([containerW "1" [textNodeW "a"]] ++
        containerW "oops" [textNodeW "b"] :: [containerW "3" [textNodeW "c"]]) =
      extractTweetsLoop ([containerW "1" [textNodeW "a"]] ++
        [containerW "oops" [textNodeW "b"]]) :=
  extractTweets_truncates_at_first_failure parseC5 "x"
    [containerW "1" [textNodeW "a"]] (containerW "oops" [textNodeW "b"])
    [containerW "3" [textNodeW "c"]] rfl
    (fun c hc => by
      rw [List.mem_singleton] at hc
      subst hc
      exact ⟨⟨1, none, "a", none⟩, rfl⟩)
    ⟨⟨"Unable to parse tweet id", none⟩, rfl⟩

/-- Counterexample for C6: a container whose `*[data-time]` selector
matches two nodes does not fail with a structural error — the source
only reads the timestamp when the selector matches exactly one node and
otherwise leaves the zero timestamp, so extraction succeeds. -/
theorem extractTweet_two_timestamps_no_error_cex :
    (c6node.findAll isDateNode).length = 2 ∧
    extractTweet c6node = .ok ⟨7, none, "hi", none⟩ := by
  exact ⟨rfl, rfl⟩

/-- C6 (amended): when the timestamp-attribute selector matches two or
more nodes, record extraction for the container succeeds with the zero
timestamp, exactly as with zero matches; only a selector matching
exactly one node yields the parsed timestamp. -/
theorem extractTweet_timestamp_cardinality (sel : Node) (idStr : String)
    (tweetID : Nat) (textNode : Node) (extra : Option TweetExtra)
    (hid : sel.attrOf "data-item-id" = some idStr)
    (hparse : parseUint64 idStr = some tweetID)
    (htext : sel.findAll isTweetTextNode = [textNode])
    (hextra : extractTweetExtra sel = .ok extra) :
    (2 ≤ (sel.findAll isDateNode).length →
        extractTweet sel = .ok ⟨tweetID, none, textNode.textContent, extra⟩) ∧
    (sel.findAll isDateNode = [] →
        extractTweet sel = .ok ⟨tweetID, none, textNode.textContent, extra⟩) ∧
    (∀ dateNode dateStr unixTime, sel.findAll isDateNode = [dateNode] →
        dateNode.attrOf "data-time" = some dateStr →
        parseInt64 dateStr = some unixTime →
        extractTweet sel = .ok ⟨tweetID, some unixTime, textNode.textContent, extra⟩) := by
  refine ⟨?_, ?_, ?_⟩
  · intro hlen
    have hne : ¬((sel.findAll isDateNode).length = 1) := by omega
    simp [extractTweet, hid, hparse, hne, htext, hextra]
  · intro hnil
    simp [extractTweet, hid, hparse, hnil, htext, hextra]
  · intro dateNode dateStr unixTime hdate hattr hpt
    simp [extractTweet, hid, hparse, hdate, hattr, hpt, htext, hextra]

/-- Witness for C6 (amended): the two-timestamp, zero-timestamp and
one-timestamp containers, with concrete results. -/
theorem extractTweet_timestamp_cardinality_witness :
    extractTweet c6node =
      .ok ⟨7, none, Node.textContent (textNodeW "hi"), none⟩ ∧
    extractTweet c6nodeZero =
      .ok ⟨7, none, Node.textContent (textNodeW "hi"), none⟩ ∧
    extractTweet c6nodeOne =
      .ok ⟨7, some 100, Node.textContent (textNodeW "hi"), none⟩ :=
  ⟨(extractTweet_timestamp_cardinality c6node "7" 7 (textNodeW "hi") none
      rfl rfl rfl rfl).1 (by decide),
   (extractTweet_timestamp_cardinality c6nodeZero "7" 7 (textNodeW "hi") none
      rfl rfl rfl rfl).2.1 rfl,
   (extractTweet_timestamp_cardinality c6nodeOne "7" 7 (textNodeW "hi") none
      rfl rfl rfl rfl).2.2 (dateNodeW "100") "100" 100 rfl rfl rfl⟩

/-- C9: downloading a gallery whose image-URL sequence is empty emits
exactly one result, carrying an error and no body, and the channel is
closed right after it; the result does not depend on the transport
collaborator at all, so no HTTP request is attempted. -/
theorem gallery_download_empty_urls (β : Type) (fetch : String → Except String β)
    (pathOf : String → Option String) :
    TweetEmbeddedGallery.Download fetch pathOf ⟨[]⟩ =
      [⟨"", none, some "Tweet contains no image URLs"⟩] :=
  rfl

/-- C10: every extracted Quote variant carries exactly the fixed
leading text "https://twitter.com" followed by the quote-link node's
`href` value, and a single quote-link node lacking `href` produces a
structural error rather than an empty URL. -/
theorem quote_url_prefixed_from_href (sel : Node) :
    (∀ q errOpt, extractEmbeddedTweetQuote sel = (some q, errOpt) →
      ∃ n href, sel.findAll isQuoteNode = [n] ∧ n.attrOf "href" = some href ∧
        q.QuoteURL = "https://twitter.com" ++ href ∧ errOpt = none) ∧
    (∀ n, sel.findAll isQuoteNode = [n] → n.attrOf "href" = none →
      ∃ e, extractEmbeddedTweetQuote sel = (none, some e)) := by
  constructor
  · intro q errOpt heq
    rcases hfq : sel.findAll isQuoteNode with _ | ⟨n₀, rest₀⟩
    · simp [extractEmbeddedTweetQuote, hfq] at heq
    · rcases rest₀ with _ | ⟨n₁, rest₁⟩
      · rcases hat : n₀.attrOf "href" with _ | href
        · simp [extractEmbeddedTweetQuote, hfq, hat] at heq
        · simp only [extractEmbeddedTweetQuote, hfq, hat] at heq
          obtain ⟨hq, herr⟩ := Prod.mk.injEq .. ▸ heq
          refine ⟨n₀, href, rfl, hat, ?_, ?_⟩
          · rw [← Option.some_injective _ hq]
          · exact herr.symm
      · simp [extractEmbeddedTweetQuote, hfq] at heq
  · intro n hfq hat
    refine ⟨⟨"Quote HTML node is missing URL", none⟩, ?_⟩
    simp [extractEmbeddedTweetQuote, hfq, hat]

/-- Witness for C10: a container with one quote-link node whose href is
"/a/status/5", and one with a quote-link node lacking href. -/
theorem quote_url_prefixed_from_href_witness :
    (∃ n href, c10Good.findAll isQuoteNode = [n] ∧ n.attrOf "href" = some href ∧
      ("https://twitter.com/a/status/5" : String) = "https://twitter.com" ++ href ∧
      (none : Option APICompatError) = none) ∧
    ∃ e, extractEmbeddedTweetQuote c10Bad = (none, some e) :=
  ⟨(quote_url_prefixed_from_href c10Good).1 ⟨"https://twitter.com/a/status/5"⟩ none rfl,
   (quote_url_prefixed_from_href c10Bad).2 quoteNodeNoHref rfl rfl⟩
